import Mathlib

/-!
Verification development for the AutoReplyChat API content ingestion and
retrieval engine. The definitions below are a shallow embedding of the
relevant source code:

- the database schema (customers / documents / embeddings tables with
  `ON DELETE CASCADE` foreign keys) from the SQL schema file;
- the admin backfill endpoint `GET /api/admin/backfill-embeddings`
  (batch loop, 429 handling, error threshold, positional vector
  write-back) from `src/routes/login.js`;
- the content routes `DELETE /api/content/:documentId`,
  `POST /api/content/retrain`, `POST /api/content/delete-bulk` and
  `POST /api/content/scrape-website` (full-site, detached background
  crawl) from the content router;
- `retrieveContext` and `crawlWebsite` (whose service sources,
  `services/rag.js` and `services/webScraper.js`, are not part of the
  sources at hand) modelled from the specification.

Machine integers of the source are modelled as `Nat`; pgvector vectors
are modelled as lists of integers (their numeric nature plays no role in
any property proved here); SQL result sets as Lean lists.
-/

namespace AutoReplyChat

/-- A pgvector value (`vector(1536)` column); the element type is
irrelevant to the properties proved here. -/
abbrev Vec := List Int

/-- One row of the `embeddings` table (schema file): chunk of a document,
with a nullable `embedding` column. `bot_id` is the later-added agent
scope column referenced by the bot routes. -/
@[ext]
structure EmbeddingRow where
  id : Nat
  customer_id : Nat
  bot_id : Option Nat
  document_id : Nat
  chunk_text : String
  embedding : Option Vec
deriving DecidableEq, Repr

/-- One row of the `documents` table (schema file). -/
structure DocumentRow where
  id : Nat
  customer_id : Nat
  bot_id : Option Nat
  title : String
  content_type : String
  source_url : Option String
  content : String
deriving DecidableEq, Repr

/-- The persistent state relevant to the content engine: the `documents`
and `embeddings` tables. -/
structure DB where
  documents : List DocumentRow
  embeddings : List EmbeddingRow
deriving DecidableEq, Repr

/-- `DELETE FROM embeddings WHERE document_id = $1`. -/
def deleteEmbeddingsByDocId (db : DB) (docId : Nat) : DB :=
  { db with embeddings := db.embeddings.filter (fun e => !(e.document_id == docId)) }

/-- `DELETE FROM documents WHERE id = $1`. The `embeddings` table declares
`document_id INTEGER REFERENCES documents(id) ON DELETE CASCADE`
(schema file), so deleting a document row also deletes the embeddings
rows that reference it. -/
def deleteDocumentById (db : DB) (docId : Nat) : DB :=
  { documents := db.documents.filter (fun d => !(d.id == docId)),
    embeddings := db.embeddings.filter (fun e => !(e.document_id == docId)) }

/-- `DELETE FROM embeddings WHERE document_id = ANY($1)`. -/
def deleteEmbeddingsByDocIds (db : DB) (docIds : List Nat) : DB :=
  { db with embeddings := db.embeddings.filter (fun e => !(docIds.contains e.document_id)) }

/-- `DELETE FROM documents WHERE id = ANY($1)`, with the schema's
`ON DELETE CASCADE` on `embeddings.document_id`. -/
def deleteDocumentsByIds (db : DB) (docIds : List Nat) : DB :=
  { documents := db.documents.filter (fun d => !(docIds.contains d.id)),
    embeddings := db.embeddings.filter (fun e => !(docIds.contains e.document_id)) }

/-- Referential integrity: every embeddings row references an existing
documents row. -/
def RefIntegrity (db : DB) : Prop :=
  ∀ e ∈ db.embeddings, ∃ d ∈ db.documents, d.id = e.document_id

/-- `DELETE /api/content/:documentId` (content router): checks the body
`customerId` against the session customer id (403 on mismatch), checks
ownership (`SELECT id FROM documents WHERE id = $1 AND customer_id = $2`,
404 when empty), then runs `DELETE FROM embeddings WHERE document_id = $1`
followed by `DELETE FROM documents WHERE id = $1`. The result is the HTTP
status together with the sequence of observable database states (initial,
after each statement). -/
def deleteDocumentEndpoint (db : DB) (documentId : Nat)
    (bodyCustomerId sessionCustomerId : Nat) : Nat × List DB :=
  if bodyCustomerId ≠ sessionCustomerId then (403, [db])
  else if (db.documents.filter
      (fun d => d.id == documentId && d.customer_id == bodyCustomerId)) = [] then
    (404, [db])
  else
    let db1 := deleteEmbeddingsByDocId db documentId
    let db2 := deleteDocumentById db1 documentId
    (200, [db, db1, db2])

/-! ### Backfill coordinator (`GET /api/admin/backfill-embeddings`, login router) -/

/-- Character-level helper for `normalizeChunkText`: collapses every run
of newline characters to a single space (the JS
`replace(/\n+/g, ' ')`). The boolean records whether we are inside a
newline run. -/
def collapseNewlinesAux : Bool → List Char → List Char
  | _, [] => []
  | inRun, c :: rest =>
    if c = '\n' then
      if inRun then collapseNewlinesAux true rest
      else ' ' :: collapseNewlinesAux true rest
    else c :: collapseNewlinesAux false rest

/-- The JS `String.prototype.trim`: strips whitespace from both ends
of the character list. -/
def jsTrim (cs : List Char) : List Char :=
  ((cs.dropWhile Char.isWhitespace).reverse.dropWhile Char.isWhitespace).reverse

/-- `r.chunk_text.replace(/\n+/g, ' ').trim()` from the backfill batch
preparation. -/
def normalizeChunkText (s : String) : String :=
  String.mk (jsTrim (collapseNewlinesAux false s.data))

/-- Insertion step of the sort modelling SQL `ORDER BY` (stable,
ascending with respect to `le`). -/
def insertSorted {α : Type} (le : α → α → Bool) (a : α) : List α → List α
  | [] => [a]
  | b :: t => if le a b then a :: b :: t else b :: insertSorted le a t

/-- Sort modelling SQL `ORDER BY` (stable insertion sort). -/
def sortBy {α : Type} (le : α → α → Bool) : List α → List α
  | [] => []
  | a :: t => insertSorted le a (sortBy le t)

/-- The batch size of the bulk embedding path (`const BATCH_SIZE = 100`). -/
def BATCH_SIZE : Nat := 100

/-- `SELECT COUNT(*) as total FROM embeddings WHERE embedding IS NULL`. -/
def countNull (db : DB) : Nat :=
  (db.embeddings.filter (fun e => e.embedding.isNone)).length

/-- `SELECT id, chunk_text FROM embeddings WHERE embedding IS NULL ORDER BY
id ASC LIMIT $1`. -/
def selectNullBatch (db : DB) (limit : Nat) : List EmbeddingRow :=
  ((sortBy (fun a b => a.id ≤ b.id)
      (db.embeddings.filter (fun e => e.embedding.isNone))).take limit)

/-- The texts submitted to the embedding API for the current batch. -/
def batchTexts (db : DB) : List String :=
  (selectNullBatch db BATCH_SIZE).map (fun r => normalizeChunkText r.chunk_text)

/-- `UPDATE embeddings SET embedding = $1::vector WHERE id = $2`. -/
def updateEmbeddingById (rows : List EmbeddingRow) (targetId : Nat) (v : Vec) :
    List EmbeddingRow :=
  rows.map (fun e => if e.id = targetId then { e with embedding := some v } else e)

/-- The write-back `for` loop of the backfill: the i-th returned vector is
stored on the i-th selected row (`response.data[i].embedding` written at
`batch.rows[i].id`). -/
def applyBatch (db : DB) (batch : List EmbeddingRow) (vecs : List Vec) : DB :=
  { db with
    embeddings := (batch.zip vecs).foldl
      (fun acc p => updateEmbeddingById acc p.1.id p.2) db.embeddings }

/-- Outcome of one call to `openai.embeddings.create` for a batch:
success, a 429 rate-limit error, or some other batch error. -/
inductive BatchOutcome
  | ok
  | rateLimited
  | failed
deriving DecidableEq, Repr

/-- Events emitted by the backfill loop, in order: an embedding API call
with the submitted texts, a per-row vector UPDATE, and a timed wait
(`setTimeout`). -/
inductive BackfillEv
  | embedCall (texts : List String)
  | update (id : Nat) (v : Vec)
  | wait (ms : Nat)
deriving DecidableEq, Repr

/-- The report object of the backfill responses: `success`, `processed`,
`total`, `errors`. -/
structure BackfillReport where
  success : Bool
  processed : Nat
  total : Nat
  errors : Nat
deriving DecidableEq, Repr

/-- Loop state of the backfill `while (true)` loop: the database, the
`processed` and `errors` counters, the number of embedding API calls made
so far (used to index the provider oracle), and the emitted event trace. -/
structure BackfillState where
  db : DB
  processed : Nat
  errors : Nat
  calls : Nat
  trace : List BackfillEv
deriving DecidableEq, Repr

/-- Result of one iteration of the backfill loop: either the loop
continues with a new state, or the handler returns a report. -/
inductive BackfillStepRes
  | next (s : BackfillState)
  | done (s : BackfillState) (r : BackfillReport)
deriving DecidableEq, Repr

/-- One iteration of the backfill `while (true)` loop (login router).
`embedFn` models the provider computing a vector from one input text
(the API contract: one vector per input, in order); `oracle` models the
per-call outcome of the provider. Faithful details: the `errors` counter
is incremented in the `catch` for every batch error including 429; the
429 branch waits 60 s and `continue`s (skipping both the threshold check
and the 200 ms inter-batch delay); the threshold check `errors > 10` runs
only in the non-429 error path; successful and under-threshold failed
iterations end with a 200 ms delay. -/
def backfillStep (embedFn : String → Vec) (oracle : Nat → BatchOutcome)
    (total : Nat) (s : BackfillState) : BackfillStepRes :=
  let batch := selectNullBatch s.db BATCH_SIZE
  if batch.isEmpty then
    .done s
      { success := true
        processed := s.processed
        total := total
        errors := s.errors }
  else
    let texts := batch.map (fun r => normalizeChunkText r.chunk_text)
    match oracle s.calls with
    | .ok =>
      let vecs := texts.map embedFn
      .next
        { db := applyBatch s.db batch vecs
          processed := s.processed + batch.length
          errors := s.errors
          calls := s.calls + 1
          trace := s.trace ++ (BackfillEv.embedCall texts ::
            (batch.zip vecs).map (fun p => BackfillEv.update p.1.id p.2)) ++
            [BackfillEv.wait 200] }
    | .rateLimited =>
      .next
        { db := s.db
          processed := s.processed
          errors := s.errors + 1
          calls := s.calls + 1
          trace := s.trace ++ [BackfillEv.embedCall texts, BackfillEv.wait 60000] }
    | .failed =>
      if s.errors + 1 > 10 then
        .done
          { s with
              errors := s.errors + 1
              calls := s.calls + 1
              trace := s.trace ++ [BackfillEv.embedCall texts] }
          { success := false
            processed := s.processed
            total := total
            errors := s.errors + 1 }
      else
        .next
          { db := s.db
            processed := s.processed
            errors := s.errors + 1
            calls := s.calls + 1
            trace := s.trace ++ [BackfillEv.embedCall texts, BackfillEv.wait 200] }

/-- The backfill loop, driven by fuel (the JS loop has no a-priori bound;
`none` means the fuel ran out before the handler returned). -/
def backfillRun (embedFn : String → Vec) (oracle : Nat → BatchOutcome)
    (total : Nat) : Nat → BackfillState → Option (BackfillState × BackfillReport)
  | 0, _ => none
  | fuel + 1, s =>
    match backfillStep embedFn oracle total s with
    | .done s' r => some (s', r)
    | .next s' => backfillRun embedFn oracle total fuel s'

/-- The whole `GET /api/admin/backfill-embeddings` handler body after the
schema guards: count the rows missing a vector; when the count is zero
return at once with `total = 0` and no writes; otherwise run the batch
loop. The result is the final database and the JSON report. -/
def backfillMissingEmbeddings (embedFn : String → Vec)
    (oracle : Nat → BatchOutcome) (fuel : Nat) (db : DB) :
    Option (DB × BackfillReport) :=
  if countNull db = 0 then
    some (db, { success := true, processed := 0, total := 0, errors := 0 })
  else
    match backfillRun embedFn oracle (countNull db) fuel
        { db := db, processed := 0, errors := 0, calls := 0, trace := [] } with
    | none => none
    | some (s', r) => some (s'.db, r)

/-! ### Retriever (`retrieveContext`) -/

/-- Modelled from the spec: `retrieveContext` lives in `services/rag.js`,
which is not among the sources at hand (only its callers are). Per §4.4
the retriever embeds the query, performs a nearest-neighbor search over
the chunks scoped to the tenant (and to the agent when one is given),
orders by cosine distance ascending and truncates to `topK`; each snippet
is paired with its source document's title. The distance function is a
parameter (`dist`); only rows that already carry a vector participate in
similarity search. We return the chosen chunk rows paired with their
document titles so the tenant of each result is visible. -/
def retrieveContext (dist : Vec → Vec → Int) (embedFn : String → Vec)
    (db : DB) (tenantId : Nat) (agentId : Option Nat) (queryText : String)
    (topK : Nat) : List (EmbeddingRow × String) :=
  let qv := embedFn queryText
  let inScope := db.embeddings.filter (fun e =>
    e.customer_id == tenantId &&
    (match agentId with
     | none => true
     | some b => e.bot_id == some b) &&
    e.embedding.isSome)
  let ranked := sortBy
    (fun a b => dist (a.embedding.getD []) qv ≤ dist (b.embedding.getD []) qv)
    inScope
  (ranked.take topK).map (fun e =>
    (e, ((db.documents.find? (fun d => d.id == e.document_id)).map
      (fun d => d.title)).getD ""))

/-! ### Full-site scrape endpoint (`POST /api/content/scrape-website`) -/

/-- One page result of the crawler (`scrapeWebpage` /
`crawlWebsite` page callback payload). -/
structure PageData where
  url : String
  title : String
  content : String
  wordCount : Nat
deriving DecidableEq, Repr

/-- Observable events of the full-site scrape endpoint: the HTTP response
to the caller, a page fetch by the crawler, and a `storeDocument` call
made from inside the `onPage` callback. -/
inductive ScrapeEv
  | respond (ok : Bool)
  | fetch (url : String)
  | store (url : String)
deriving DecidableEq, Repr

/-- Modelled from the spec: `crawlWebsite` lives in
`services/webScraper.js`, which is not among the sources at hand. Per
§4.5 the crawler, on each dequeue, fetches the page and invokes `onPage`
with the page result immediately (streaming, not batched). One crawl run
is represented by the ordered list of pages it fetches; the trace
interleaves each fetch with the immediate `onPage` invocation, which in
the full-site endpoint stores the page via `storeDocument`. -/
def crawlTrace : List PageData → List ScrapeEv
  | [] => []
  | p :: rest => ScrapeEv.fetch p.url :: ScrapeEv.store p.url :: crawlTrace rest

/-- The full-site branch of `POST /api/content/scrape-website` (content
router): `res.json({ success: true, ... })` is sent first, then the
detached `(async () => { await crawlWebsite(url, 100, onPage) })()` runs,
whose `onPage` stores each page as it arrives. -/
def scrapeWebsiteFullSite (pages : List PageData) : List ScrapeEv :=
  ScrapeEv.respond true :: crawlTrace pages

/-! ### Retrain endpoint (`POST /api/content/retrain`) -/

/-- Observable events of the background retrain loop: the re-scrape
attempt that begins an iteration, the delete of the old document and its
embeddings, the `storeDocument` of the fresh content, the 500 ms pacing
`setTimeout`, and a recorded failure (the `catch` branch). -/
inductive RetrainEv
  | attempt (docId : Nat)
  | deleteOld (docId : Nat)
  | store (docId : Nat)
  | wait (ms : Nat)
  | failure (docId : Nat)
deriving DecidableEq, Repr

/-- The background retrain loop (content router): for each selected
website document in order, re-scrape it, delete its embeddings and the
document row, store the fresh page, and sleep 500 ms — all inside a
`try`; on any error the `catch` records the failure and the `for` loop
moves to the next document. `ok docId` models whether the iteration for
that document succeeds (scrape plus store). Returns `successCount` and
the event trace. -/
def retrainLoop (ok : Nat → Bool) : List DocumentRow → Nat × List RetrainEv
  | [] => (0, [])
  | d :: rest =>
    let r := retrainLoop ok rest
    if ok d.id then
      (r.1 + 1,
        RetrainEv.attempt d.id :: RetrainEv.deleteOld d.id ::
        RetrainEv.store d.id :: RetrainEv.wait 500 :: r.2)
    else
      (r.1, RetrainEv.attempt d.id :: RetrainEv.failure d.id :: r.2)

/-- The synchronous part of `POST /api/content/retrain`: the ownership
check `parseInt(customerId) !== req.customerId` (403, nothing happens),
the `documentIds` presence check (400), the selection
`SELECT ... FROM documents WHERE id = ANY($1) AND customer_id = $2`
filtered in JS to website documents with a source url (400 when empty),
then the 200 response. Returns the HTTP status and the selected
documents handed to the background loop (empty when rejected). -/
def retrainEndpoint (db : DB) (bodyCustomerId sessionCustomerId : Nat)
    (documentIds : List Nat) : Nat × List DocumentRow :=
  if bodyCustomerId ≠ sessionCustomerId then (403, [])
  else if documentIds.isEmpty then (400, [])
  else
    let docs := db.documents.filter (fun d =>
      documentIds.contains d.id && d.customer_id == bodyCustomerId)
    let websiteDocs := docs.filter (fun d =>
      d.content_type == "website" && d.source_url.isSome)
    if websiteDocs.isEmpty then (400, [])
    else (200, websiteDocs)

/-! ### Bulk delete endpoint (`POST /api/content/delete-bulk`) -/

/-- `POST /api/content/delete-bulk` (content router): the ownership check
(403), the `documentIds` presence check (400), the ownership-scoped
selection `SELECT id FROM documents WHERE id = ANY($1) AND
customer_id = $2` (404 when empty), then `DELETE FROM embeddings WHERE
document_id = ANY($1)` and `DELETE FROM documents WHERE id = ANY($1)` on
the selected ids. Returns the HTTP status and the resulting database. -/
def deleteBulkEndpoint (db : DB) (bodyCustomerId sessionCustomerId : Nat)
    (documentIds : List Nat) : Nat × DB :=
  if bodyCustomerId ≠ sessionCustomerId then (403, db)
  else if documentIds.isEmpty then (400, db)
  else
    let validIds := (db.documents.filter (fun d =>
      documentIds.contains d.id && d.customer_id == bodyCustomerId)).map
        (fun d => d.id)
    if validIds.isEmpty then (404, db)
    else (200, deleteDocumentsByIds (deleteEmbeddingsByDocIds db validIds) validIds)

/-! ### Proof-support definitions -/

/-- The write-back fold of `applyBatch`, named so the proofs can recurse
on the list of (row, vector) pairs. -/
def foldUpd (ps : List (EmbeddingRow × Vec)) (rows : List EmbeddingRow) :
    List EmbeddingRow :=
  ps.foldl (fun acc p => updateEmbeddingById acc p.1.id p.2) rows

/-- Frame relation between an embeddings row before and after a backfill
run: every column except the nullable `embedding` is unchanged, and a
vector that was already present is still present and equal. -/
def FrameOk (e e' : EmbeddingRow) : Prop :=
  e'.id = e.id ∧ e'.customer_id = e.customer_id ∧ e'.bot_id = e.bot_id ∧
  e'.document_id = e.document_id ∧ e'.chunk_text = e.chunk_text ∧
  ∀ v, e.embedding = some v → e'.embedding = some v

/-- Projection of retrain events to the document id of the re-scrape
attempt that begins an iteration. -/
def attemptId : RetrainEv → Option Nat
  | .attempt i => some i
  | _ => none

/-! ### Concrete fixtures used by the witnesses -/

/-- A provider model computing a vector from the text length. -/
def embedLen : String → Vec := fun s => [Int.ofNat s.length]

/-- A trivial distance function. -/
def distZero : Vec → Vec → Int := fun _ _ => 0

/-- A provider oracle that always succeeds. -/
def oracleOk : Nat → BatchOutcome := fun _ => .ok

/-- A provider oracle that always rate-limits. -/
def oracle429 : Nat → BatchOutcome := fun _ => .rateLimited

/-- A provider oracle: eleven rate-limited calls, then a non-429 batch
failure. -/
def oracle429ThenFail : Nat → BatchOutcome :=
  fun n => if n < 11 then .rateLimited else .failed

/-- Tenant 1's sample document. -/
def docA : DocumentRow := ⟨10, 1, none, "Doc A", "website", some "http://a/1", "alpha text"⟩

/-- Tenant 2's sample document. -/
def docB : DocumentRow := ⟨20, 2, none, "Doc B", "website", some "http://b/1", "beta text"⟩

/-- A chunk of tenant 1's document, already embedded. -/
def rowA : EmbeddingRow := ⟨1, 1, none, 10, "alpha text", some [1]⟩

/-- A chunk of tenant 2's document, already embedded. -/
def rowB : EmbeddingRow := ⟨2, 2, none, 20, "beta text", some [2]⟩

/-- A chunk of tenant 1's document that is still missing its vector. -/
def rowANull : EmbeddingRow := ⟨3, 1, none, 10, "alpha tail", none⟩

/-- A two-tenant database with one un-embedded chunk. -/
def dbTwoTenants : DB := ⟨[docA, docB], [rowA, rowB, rowANull]⟩

/-- A database whose single chunk is missing its vector. -/
def dbOneNull : DB := ⟨[docA], [⟨1, 1, none, 10, "alpha text", none⟩]⟩

/-- A database with no chunk missing a vector. -/
def dbAllEmbedded : DB := ⟨[docA, docB], [rowA, rowB]⟩

/-- `dbOneNull` after a successful backfill with `embedLen` (the text
"alpha text" has length ten). -/
def dbOneNullEmbedded : DB := ⟨[docA], [⟨1, 1, none, 10, "alpha text", some [10]⟩]⟩

/-- An initial backfill loop state over `dbOneNull`. -/
def stateOneNull : BackfillState :=
  { db := dbOneNull, processed := 0, errors := 0, calls := 0, trace := [] }

/-- Two crawled pages for the scrape-website witness. -/
def pageOne : PageData := ⟨"http://a/1", "One", "first page", 2⟩

/-- Second crawled page for the scrape-website witness. -/
def pageTwo : PageData := ⟨"http://a/2", "Two", "second page", 2⟩

/-- A retrain iteration oracle failing exactly on document 10. -/
def okExceptTen : Nat → Bool := fun n => !(n == 10)

/-- A website document whose re-scrape will fail in the retrain witness. -/
def docTen : DocumentRow := ⟨10, 1, none, "Ten", "website", some "http://a/10", "ten"⟩

/-- A website document whose re-scrape will succeed in the retrain witness. -/
def docEleven : DocumentRow := ⟨11, 1, none, "Eleven", "website", some "http://a/11", "eleven"⟩

/-! ## Theorems -/

/-- Inserting into the sort is a permutation of consing. -/
theorem insertSorted_perm {α : Type} (le : α → α → Bool) (a : α) :
    ∀ l : List α, List.Perm (insertSorted le a l) (a :: l) := by
  intro l
  induction l with
  | nil => simp [insertSorted]
  | cons b t ih =>
    unfold insertSorted
    by_cases h : le a b = true
    · rw [if_pos h]
    · rw [if_neg h]
      exact List.Perm.trans (List.Perm.cons b ih) (List.Perm.swap a b t)

/-- The `ORDER BY` model is a permutation of its input. -/
theorem sortBy_perm {α : Type} (le : α → α → Bool) :
    ∀ l : List α, List.Perm (sortBy le l) l := by
  intro l
  induction l with
  | nil => simp [sortBy]
  | cons a t ih =>
    unfold sortBy
    exact List.Perm.trans (insertSorted_perm le a (sortBy le t))
      (List.Perm.cons a ih)

/-- Membership is preserved by the `ORDER BY` model. -/
theorem mem_sortBy {α : Type} {le : α → α → Bool} {x : α} {l : List α} :
    x ∈ sortBy le l ↔ x ∈ l :=
  (sortBy_perm le l).mem_iff

/-- C1: a retrieval call scoped to tenant A only ever returns chunk rows
whose tenant id is A; in particular, for any other tenant B, no returned
chunk carries tenant id B, whatever the query, agent scope, distance
function, or provider. -/
theorem retrieveContext_tenant_isolation
    (dist : Vec → Vec → Int) (embedFn : String → Vec) (db : DB)
    (A B : Nat) (agentId : Option Nat) (q : String) (topK : Nat)
    (hAB : A ≠ B) :
    ∀ p ∈ retrieveContext dist embedFn db A agentId q topK,
      p.1.customer_id = A ∧ p.1.customer_id ≠ B := by
  intro p hp
  unfold retrieveContext at hp
  simp only [List.mem_map] at hp
  obtain ⟨e, he, rfl⟩ := hp
  have he' := List.mem_of_mem_take he
  rw [mem_sortBy, List.mem_filter] at he'
  have hA : e.customer_id = A := by
    have h2 := he'.2
    simp only [Bool.and_eq_true, beq_iff_eq] at h2
    exact h2.1.1
  refine ⟨hA, ?_⟩
  rw [hA]
  exact hAB

/-- Witness for C1 at a concrete two-tenant database. -/
theorem retrieveContext_tenant_isolation_witness :
    (1 : Nat) ≠ 2 ∧
    ∀ p ∈ retrieveContext distZero embedLen dbTwoTenants 1 none "refund policy" 5,
      p.1.customer_id = 1 ∧ p.1.customer_id ≠ 2 :=
  ⟨by decide,
   retrieveContext_tenant_isolation distZero embedLen dbTwoTenants 1 2 none
     "refund policy" 5 (by decide)⟩

/-- C2: the single-document delete endpoint removes the document together
with all of its chunks — after a 200 response, no embeddings row
references the deleted document id and the document row is gone — and at
every observable database state of the endpoint (initial, after the
embeddings delete, after the document delete) referential integrity
holds: no chunk ever references a missing document. -/
theorem deleteDocument_cascade_integrity
    (db : DB) (documentId bodyCid sessCid : Nat)
    (hri : RefIntegrity db) :
    (∀ s ∈ (deleteDocumentEndpoint db documentId bodyCid sessCid).2, RefIntegrity s) ∧
    ((deleteDocumentEndpoint db documentId bodyCid sessCid).1 = 200 →
      ∀ dbF ∈ (deleteDocumentEndpoint db documentId bodyCid sessCid).2.getLast?,
        (∀ e ∈ dbF.embeddings, e.document_id ≠ documentId) ∧
        (∀ d ∈ dbF.documents, d.id ≠ documentId)) := by
  unfold deleteDocumentEndpoint
  by_cases hcid : bodyCid ≠ sessCid
  · simp only [if_pos hcid]
    constructor
    · intro s hs
      simp only [List.mem_singleton] at hs
      exact hs ▸ hri
    · intro h200
      exact absurd h200 (by decide)
  · simp only [if_neg hcid]
    by_cases hdoc : (db.documents.filter
        (fun d => d.id == documentId && d.customer_id == bodyCid)) = []
    · simp only [if_pos hdoc]
      constructor
      · intro s hs
        simp only [List.mem_singleton] at hs
        exact hs ▸ hri
      · intro h200
        exact absurd h200 (by decide)
    · simp only [if_neg hdoc]
      constructor
      · intro s hs
        simp only [List.mem_cons, List.mem_singleton, List.not_mem_nil, or_false] at hs
        rcases hs with rfl | rfl | rfl
        · exact hri
        · -- after `DELETE FROM embeddings WHERE document_id = $1`
          intro e hemem
          have he : e ∈ db.embeddings := by
            exact List.mem_of_mem_filter hemem
          exact hri e he
        · -- after both deletes
          intro e hemem
          unfold deleteDocumentById deleteEmbeddingsByDocId at hemem
          simp only [List.mem_filter, Bool.not_eq_eq_eq_not, Bool.not_true,
            beq_eq_false_iff_ne, ne_eq] at hemem
          obtain ⟨⟨he, hne⟩, _⟩ := hemem
          obtain ⟨d, hd, hdid⟩ := hri e he
          refine ⟨d, ?_, hdid⟩
          unfold deleteDocumentById deleteEmbeddingsByDocId
          simp only [List.mem_filter, Bool.not_eq_eq_eq_not, Bool.not_true,
            beq_eq_false_iff_ne, ne_eq]
          exact ⟨hd, by rw [hdid]; exact hne⟩
      · intro _ dbF hdbF
        simp only [List.getLast?] at hdbF
        rw [Option.mem_def] at hdbF
        have hdbF' : dbF = deleteDocumentById (deleteEmbeddingsByDocId db documentId) documentId := by
          have := hdbF
          simp only [List.getLast?_cons_cons, List.getLast?_singleton,
            Option.some.injEq] at this
          exact this.symm
        subst hdbF'
        constructor
        · intro e hemem
          unfold deleteDocumentById at hemem
          simp only [List.mem_filter, Bool.not_eq_eq_eq_not, Bool.not_true,
            beq_eq_false_iff_ne, ne_eq] at hemem
          exact hemem.2
        · intro d hdmem
          unfold deleteDocumentById at hdmem
          simp only [List.mem_filter, Bool.not_eq_eq_eq_not, Bool.not_true,
            beq_eq_false_iff_ne, ne_eq] at hdmem
          exact hdmem.2

/-- Witness for C2: deleting document 10 of the two-tenant database. -/
theorem deleteDocument_cascade_integrity_witness :
    RefIntegrity dbTwoTenants ∧
    ((∀ s ∈ (deleteDocumentEndpoint dbTwoTenants 10 1 1).2, RefIntegrity s) ∧
     ((deleteDocumentEndpoint dbTwoTenants 10 1 1).1 = 200 →
       ∀ dbF ∈ (deleteDocumentEndpoint dbTwoTenants 10 1 1).2.getLast?,
         (∀ e ∈ dbF.embeddings, e.document_id ≠ 10) ∧
         (∀ d ∈ dbF.documents, d.id ≠ 10))) :=
  ⟨by unfold RefIntegrity; decide,
   deleteDocument_cascade_integrity dbTwoTenants 10 1 1 (by unfold RefIntegrity; decide)⟩

/-- Index structure of the crawl trace: the fetch of page `i` sits at
position `2 i` and the `onPage` store of page `i` immediately after it at
position `2 i + 1`. -/
theorem crawlTrace_getElem (pages : List PageData) :
    ∀ i (hi : i < pages.length),
      (crawlTrace pages)[2 * i]? = some (ScrapeEv.fetch pages[i].url) ∧
      (crawlTrace pages)[2 * i + 1]? = some (ScrapeEv.store pages[i].url) := by
  induction pages with
  | nil =>
    intro i hi
    exact absurd hi (Nat.not_lt_zero i)
  | cons p rest ih =>
    intro i hi
    cases i with
    | zero =>
      refine ⟨?_, ?_⟩ <;> simp [crawlTrace]
    | succ j =>
      have hj : j < rest.length := Nat.lt_of_succ_lt_succ hi
      have hrec := ih j hj
      have h2 : 2 * (j + 1) = 2 * j + 1 + 1 := by ring
      constructor
      · rw [show crawlTrace (p :: rest) =
            ScrapeEv.fetch p.url :: ScrapeEv.store p.url :: crawlTrace rest from rfl]
        rw [h2, List.getElem?_cons_succ, List.getElem?_cons_succ]
        simpa using hrec.1
      · rw [show crawlTrace (p :: rest) =
            ScrapeEv.fetch p.url :: ScrapeEv.store p.url :: crawlTrace rest from rfl]
        rw [h2, List.getElem?_cons_succ, List.getElem?_cons_succ]
        simpa using hrec.2

/-- C7: in full-site mode the scrape-website endpoint emits its success
response at position 0 of the event trace — before any page is fetched —
and each page `i` is fetched at position `2 i + 1` and stored via
`storeDocument` from inside the `onPage` callback at position `2 i + 2`,
immediately after its own fetch and before the fetch of page `i + 1` at
position `2 i + 3`: ingestion is streaming, so partial progress is
observable in the knowledge store before the crawl finishes. -/
theorem scrape_website_streaming_order (pages : List PageData) :
    (scrapeWebsiteFullSite pages)[0]? = some (ScrapeEv.respond true) ∧
    ∀ i (hi : i < pages.length),
      (scrapeWebsiteFullSite pages)[2 * i + 1]? = some (ScrapeEv.fetch pages[i].url) ∧
      (scrapeWebsiteFullSite pages)[2 * i + 2]? = some (ScrapeEv.store pages[i].url) := by
  constructor
  · simp [scrapeWebsiteFullSite]
  · intro i hi
    have h := crawlTrace_getElem pages i hi
    constructor
    · rw [show scrapeWebsiteFullSite pages =
          ScrapeEv.respond true :: crawlTrace pages from rfl]
      rw [List.getElem?_cons_succ]
      exact h.1
    · rw [show scrapeWebsiteFullSite pages =
          ScrapeEv.respond true :: crawlTrace pages from rfl]
      rw [show 2 * i + 2 = (2 * i + 1) + 1 from rfl, List.getElem?_cons_succ]
      exact h.2

/-- Witness for C7 on a concrete two-page crawl. -/
theorem scrape_website_streaming_order_witness :
    0 < ([pageOne, pageTwo] : List PageData).length ∧
    ((scrapeWebsiteFullSite [pageOne, pageTwo])[2 * 0 + 1]? =
        some (ScrapeEv.fetch ([pageOne, pageTwo][0]).url) ∧
     (scrapeWebsiteFullSite [pageOne, pageTwo])[2 * 0 + 2]? =
        some (ScrapeEv.store ([pageOne, pageTwo][0]).url)) :=
  ⟨by decide, (scrape_website_streaming_order [pageOne, pageTwo]).2 0 (by decide)⟩

/-- Every selected document is attempted by the retrain loop, in order:
the attempts of the trace are exactly the selected document ids. -/
theorem retrainLoop_attempts (ok : Nat → Bool) (docs : List DocumentRow) :
    (retrainLoop ok docs).2.filterMap attemptId = docs.map (fun d => d.id) := by
  induction docs with
  | nil => rfl
  | cons d rest ih =>
    by_cases h : ok d.id = true
    · simp [retrainLoop, h, attemptId, ih]
    · rw [Bool.not_eq_true] at h
      simp [retrainLoop, h, attemptId, ih]

/-- The retrain success counter counts exactly the successful
iterations. -/
theorem retrainLoop_successCount (ok : Nat → Bool) (docs : List DocumentRow) :
    (retrainLoop ok docs).1 = (docs.filter (fun d => ok d.id)).length := by
  induction docs with
  | nil => rfl
  | cons d rest ih =>
    by_cases h : ok d.id = true
    · simp [retrainLoop, h, List.filter_cons, ih]
    · rw [Bool.not_eq_true] at h
      simp [retrainLoop, h, List.filter_cons, ih]

/-- A successful iteration re-stores its document. -/
theorem retrainLoop_store_mem (ok : Nat → Bool) (docs : List DocumentRow) :
    ∀ d ∈ docs, ok d.id = true → RetrainEv.store d.id ∈ (retrainLoop ok docs).2 := by
  induction docs with
  | nil => intro d hd; exact absurd hd (List.not_mem_nil d)
  | cons a rest ih =>
    intro d hd hok
    rcases List.mem_cons.mp hd with rfl | hd'
    · simp [retrainLoop, hok]
    · by_cases h : ok a.id = true
      · simp only [retrainLoop, h, if_pos]
        simp only [List.mem_cons]
        exact Or.inr (Or.inr (Or.inr (Or.inr (ih d hd' hok))))
      · rw [Bool.not_eq_true] at h
        simp only [retrainLoop, h, Bool.false_eq_true, if_false]
        simp only [List.mem_cons]
        exact Or.inr (Or.inr (ih d hd' hok))

/-- A failed iteration records its failure. -/
theorem retrainLoop_failure_mem (ok : Nat → Bool) (docs : List DocumentRow) :
    ∀ d ∈ docs, ok d.id = false → RetrainEv.failure d.id ∈ (retrainLoop ok docs).2 := by
  induction docs with
  | nil => intro d hd; exact absurd hd (List.not_mem_nil d)
  | cons a rest ih =>
    intro d hd hfail
    rcases List.mem_cons.mp hd with rfl | hd'
    · simp [retrainLoop, hfail]
    · by_cases h : ok a.id = true
      · simp only [retrainLoop, h, if_pos]
        simp only [List.mem_cons]
        exact Or.inr (Or.inr (Or.inr (Or.inr (ih d hd' hfail))))
      · rw [Bool.not_eq_true] at h
        simp only [retrainLoop, h, Bool.false_eq_true, if_false]
        simp only [List.mem_cons]
        exact Or.inr (Or.inr (ih d hd' hfail))

/-- Exactly one 500 ms pacing wait per successful iteration (and none
after a failed one). -/
theorem retrainLoop_wait_count (ok : Nat → Bool) (docs : List DocumentRow) :
    (retrainLoop ok docs).2.count (RetrainEv.wait 500) =
      (docs.filter (fun d => ok d.id)).length := by
  induction docs with
  | nil => rfl
  | cons d rest ih =>
    by_cases h : ok d.id = true
    · simp [retrainLoop, h, List.filter_cons, List.count_cons, ih]
    · rw [Bool.not_eq_true] at h
      simp [retrainLoop, h, List.filter_cons, List.count_cons, ih]

/-- C8 counterexample: with two selected documents where the first
iteration fails, the loop emits no pacing wait between the first and the
second iteration — the second attempt follows the recorded failure
immediately — so the claim's "short pacing delay between iterations"
does not hold as stated (the 500 ms `setTimeout` sits inside the `try`,
after a successful store only). -/
theorem retrain_pacing_counterexample :
    retrainLoop okExceptTen [docTen, docEleven] =
      (1, [RetrainEv.attempt 10, RetrainEv.failure 10, RetrainEv.attempt 11,
           RetrainEv.deleteOld 11, RetrainEv.store 11, RetrainEv.wait 500]) ∧
    ((retrainLoop okExceptTen [docTen, docEleven]).2.take 3).count
        (RetrainEv.wait 500) = 0 ∧
    (retrainLoop okExceptTen [docTen, docEleven]).2[2]? =
      some (RetrainEv.attempt 11) := by decide

/-- C8 as amended: the retrain loop processes the selected documents
strictly one at a time in order; every selected document is attempted
regardless of earlier failures; a failure is recorded and the loop
continues; the 500 ms pacing delay follows each successful iteration
(and only those). -/
theorem retrain_loop_resilience_amended (ok : Nat → Bool) (docs : List DocumentRow) :
    (retrainLoop ok docs).2.filterMap attemptId = docs.map (fun d => d.id) ∧
    (retrainLoop ok docs).1 = (docs.filter (fun d => ok d.id)).length ∧
    (∀ d ∈ docs, ok d.id = true → RetrainEv.store d.id ∈ (retrainLoop ok docs).2) ∧
    (∀ d ∈ docs, ok d.id = false → RetrainEv.failure d.id ∈ (retrainLoop ok docs).2) ∧
    (retrainLoop ok docs).2.count (RetrainEv.wait 500) =
      (docs.filter (fun d => ok d.id)).length :=
  ⟨retrainLoop_attempts ok docs, retrainLoop_successCount ok docs,
   retrainLoop_store_mem ok docs, retrainLoop_failure_mem ok docs,
   retrainLoop_wait_count ok docs⟩

/-- Witness for the amended C8 at the concrete failing-then-succeeding
run: document 11 is still re-stored although document 10 failed. -/
theorem retrain_loop_resilience_amended_witness :
    docEleven ∈ [docTen, docEleven] ∧ okExceptTen docEleven.id = true ∧
    RetrainEv.store docEleven.id ∈ (retrainLoop okExceptTen [docTen, docEleven]).2 :=
  ⟨by decide, by decide,
   (retrain_loop_resilience_amended okExceptTen [docTen, docEleven]).2.2.1
     docEleven (by decide) (by decide)⟩

/-- C10: the retrain and bulk-delete endpoints enforce tenant ownership
at the boundary. When the supplied customer id differs from the session's
customer id both reject with 403 and change nothing; otherwise the
retrain selection only contains documents owned by that customer, and
bulk delete never removes another tenant's documents or chunks (document
ids are unique, as they are a SERIAL primary key). -/
theorem tenant_ownership_enforcement (db : DB) (bodyCid sessCid : Nat)
    (ids : List Nat)
    (hnd : (db.documents.map (fun d => d.id)).Nodup) :
    (bodyCid ≠ sessCid →
      retrainEndpoint db bodyCid sessCid ids = (403, []) ∧
      deleteBulkEndpoint db bodyCid sessCid ids = (403, db)) ∧
    (∀ d ∈ (retrainEndpoint db bodyCid sessCid ids).2, d.customer_id = bodyCid) ∧
    (∀ d ∈ db.documents, d.customer_id ≠ bodyCid →
      d ∈ (deleteBulkEndpoint db bodyCid sessCid ids).2.documents) ∧
    (∀ e ∈ db.embeddings,
      (∀ d ∈ db.documents, d.id = e.document_id → d.customer_id ≠ bodyCid) →
      e ∈ (deleteBulkEndpoint db bodyCid sessCid ids).2.embeddings) := by
  refine ⟨?_, ?_, ?_, ?_⟩
  · intro hne
    unfold retrainEndpoint deleteBulkEndpoint
    rw [if_pos hne, if_pos hne]
    exact ⟨rfl, rfl⟩
  · intro d hd
    unfold retrainEndpoint at hd
    by_cases hne : bodyCid ≠ sessCid
    · rw [if_pos hne] at hd
      exact absurd hd (List.not_mem_nil d)
    · rw [if_neg hne] at hd
      by_cases hids : ids.isEmpty = true
      · rw [if_pos hids] at hd
        exact absurd hd (List.not_mem_nil d)
      · rw [if_neg hids] at hd
        by_cases hweb : ((db.documents.filter (fun d =>
            ids.contains d.id && d.customer_id == bodyCid)).filter (fun d =>
            d.content_type == "website" && d.source_url.isSome)).isEmpty = true
        · rw [if_pos hweb] at hd
          exact absurd hd (List.not_mem_nil d)
        · rw [if_neg hweb] at hd
          simp only [List.mem_filter, Bool.and_eq_true, beq_iff_eq] at hd
          exact hd.1.2.2
  · intro d hd hother
    unfold deleteBulkEndpoint
    by_cases hne : bodyCid ≠ sessCid
    · rw [if_pos hne]; exact hd
    · rw [if_neg hne]
      by_cases hids : ids.isEmpty = true
      · rw [if_pos hids]; exact hd
      · rw [if_neg hids]
        by_cases hvalid : ((db.documents.filter (fun d =>
            ids.contains d.id && d.customer_id == bodyCid)).map (fun d => d.id)).isEmpty = true
        · rw [if_pos hvalid]; exact hd
        · rw [if_neg hvalid]
          unfold deleteDocumentsByIds deleteEmbeddingsByDocIds
          refine List.mem_filter.mpr ⟨hd, ?_⟩
          have hnotin : d.id ∉ (db.documents.filter (fun x =>
              ids.contains x.id && x.customer_id == bodyCid)).map (fun x => x.id) := by
            intro hmem
            rw [List.mem_map] at hmem
            obtain ⟨x, hx, hxid⟩ := hmem
            have hx' := List.mem_filter.mp hx
            have hxcid : x.customer_id = bodyCid := by
              have h2 := hx'.2
              simp only [Bool.and_eq_true, beq_iff_eq] at h2
              exact h2.2
            have hxd : x = d := List.inj_on_of_nodup_map hnd hx'.1 hd hxid
            exact hother (hxd ▸ hxcid)
          simpa using hnotin
  · intro e he hown
    unfold deleteBulkEndpoint
    by_cases hne : bodyCid ≠ sessCid
    · rw [if_pos hne]; exact he
    · rw [if_neg hne]
      by_cases hids : ids.isEmpty = true
      · rw [if_pos hids]; exact he
      · rw [if_neg hids]
        by_cases hvalid : ((db.documents.filter (fun d =>
            ids.contains d.id && d.customer_id == bodyCid)).map (fun d => d.id)).isEmpty = true
        · rw [if_pos hvalid]; exact he
        · rw [if_neg hvalid]
          unfold deleteDocumentsByIds deleteEmbeddingsByDocIds
          have hnotin : e.document_id ∉ (db.documents.filter (fun x =>
              ids.contains x.id && x.customer_id == bodyCid)).map (fun x => x.id) := by
            intro hmem
            rw [List.mem_map] at hmem
            obtain ⟨x, hx, hxid⟩ := hmem
            have hx' := List.mem_filter.mp hx
            have hxcid : x.customer_id = bodyCid := by
              have h2 := hx'.2
              simp only [Bool.and_eq_true, beq_iff_eq] at h2
              exact h2.2
            exact hown x hx'.1 hxid hxcid
          refine List.mem_filter.mpr ⟨List.mem_filter.mpr ⟨he, ?_⟩, ?_⟩ <;>
            simpa using hnotin

/-- Witness for C10 at the two-tenant database, with matching session and
body customer ids. -/
theorem tenant_ownership_enforcement_witness :
    (dbTwoTenants.documents.map (fun d => d.id)).Nodup ∧
    (((1 : Nat) ≠ 1 →
      retrainEndpoint dbTwoTenants 1 1 [10, 20] = (403, []) ∧
      deleteBulkEndpoint dbTwoTenants 1 1 [10, 20] = (403, dbTwoTenants)) ∧
    (∀ d ∈ (retrainEndpoint dbTwoTenants 1 1 [10, 20]).2, d.customer_id = 1) ∧
    (∀ d ∈ dbTwoTenants.documents, d.customer_id ≠ 1 →
      d ∈ (deleteBulkEndpoint dbTwoTenants 1 1 [10, 20]).2.documents) ∧
    (∀ e ∈ dbTwoTenants.embeddings,
      (∀ d ∈ dbTwoTenants.documents, d.id = e.document_id → d.customer_id ≠ 1) →
      e ∈ (deleteBulkEndpoint dbTwoTenants 1 1 [10, 20]).2.embeddings)) :=
  ⟨by decide, tenant_ownership_enforcement dbTwoTenants 1 1 [10, 20] (by decide)⟩

/-- The batch selection is empty exactly when no chunk is missing its
vector. -/
theorem selectNullBatch_isEmpty_iff (db : DB) :
    selectNullBatch db BATCH_SIZE = [] ↔ countNull db = 0 := by
  unfold selectNullBatch countNull BATCH_SIZE
  rw [List.take_eq_nil_iff, List.length_eq_zero]
  constructor
  · intro h
    rcases h with h | h
    · exact absurd h (by decide)
    · have hp := sortBy_perm (fun a b => a.id ≤ b.id)
        (db.embeddings.filter (fun e => e.embedding.isNone))
      rw [h] at hp
      exact hp.symm.eq_nil
  · intro h
    right
    rw [h]
    rfl

/-- Rows selected for backfill are rows of the database that are missing
their vector. -/
theorem mem_selectNullBatch {db : DB} {n : Nat} {r : EmbeddingRow}
    (h : r ∈ selectNullBatch db n) : r ∈ db.embeddings ∧ r.embedding = none := by
  unfold selectNullBatch at h
  have h' := List.mem_of_mem_take h
  rw [mem_sortBy, List.mem_filter] at h'
  exact ⟨h'.1, Option.isNone_iff_eq_none.mp h'.2⟩

/-- The ids of the selected batch are pairwise distinct whenever the
table's ids are (they are a SERIAL primary key). -/
theorem selectNullBatch_ids_nodup {db : DB} {n : Nat}
    (h : (db.embeddings.map (fun e => e.id)).Nodup) :
    ((selectNullBatch db n).map (fun e => e.id)).Nodup := by
  unfold selectNullBatch
  have h1 : ((db.embeddings.filter (fun e => e.embedding.isNone)).map
      (fun e => e.id)).Nodup :=
    ((List.filter_sublist db.embeddings).map (fun e => e.id)).nodup h
  have h2 : ((sortBy (fun a b => a.id ≤ b.id)
      (db.embeddings.filter (fun e => e.embedding.isNone))).map
        (fun e => e.id)).Nodup :=
    ((sortBy_perm (fun a b => a.id ≤ b.id)
      (db.embeddings.filter (fun e => e.embedding.isNone))).map
        (fun e => e.id)).symm.nodup h1
  exact ((List.take_sublist n (sortBy (fun a b => a.id ≤ b.id)
    (db.embeddings.filter (fun e => e.embedding.isNone)))).map
      (fun e => e.id)).nodup h2

/-- A per-row `UPDATE` does not change the id column of any row. -/
theorem updateEmbeddingById_id_map (rows : List EmbeddingRow) (tid : Nat) (v : Vec) :
    (updateEmbeddingById rows tid v).map (fun e => e.id) =
      rows.map (fun e => e.id) := by
  induction rows with
  | nil => rfl
  | cons a t ih =>
    show ((if a.id = tid then { a with embedding := some v } else a) ::
      updateEmbeddingById t tid v).map (fun e => e.id) =
        a.id :: t.map (fun e => e.id)
    rw [List.map_cons, ih]
    congr 1
    by_cases h : a.id = tid
    · rw [if_pos h]
    · rw [if_neg h]

/-- A row whose id is not the `UPDATE` target is untouched. -/
theorem mem_update_of_id_ne {x : EmbeddingRow} {rows : List EmbeddingRow}
    {tid : Nat} {v : Vec} (hx : x ∈ rows) (hne : x.id ≠ tid) :
    x ∈ updateEmbeddingById rows tid v := by
  unfold updateEmbeddingById
  rw [List.mem_map]
  exact ⟨x, hx, by rw [if_neg hne]⟩

/-- The `UPDATE` target receives exactly the written vector. -/
theorem target_mem_update {r : EmbeddingRow} {rows : List EmbeddingRow}
    (v : Vec) (hr : r ∈ rows) :
    { r with embedding := some v } ∈ updateEmbeddingById rows r.id v := by
  unfold updateEmbeddingById
  rw [List.mem_map]
  exact ⟨r, hr, by rw [if_pos rfl]⟩

/-- `FrameOk` is reflexive. -/
theorem frameOk_refl (e : EmbeddingRow) : FrameOk e e :=
  ⟨rfl, rfl, rfl, rfl, rfl, fun _ h => h⟩

/-- `FrameOk` composes. -/
theorem frameOk_trans {a b c : EmbeddingRow} (h1 : FrameOk a b) (h2 : FrameOk b c) :
    FrameOk a c := by
  obtain ⟨i1, c1, b1, d1, t1, v1⟩ := h1
  obtain ⟨i2, c2, b2, d2, t2, v2⟩ := h2
  exact ⟨i2.trans i1, c2.trans c1, b2.trans b1, d2.trans d1, t2.trans t1,
    fun v h => v2 v (v1 v h)⟩

/-- `Forall₂ FrameOk` is reflexive. -/
theorem forall₂_frameOk_refl (l : List EmbeddingRow) : List.Forall₂ FrameOk l l := by
  induction l with
  | nil => exact List.Forall₂.nil
  | cons a t ih => exact List.Forall₂.cons (frameOk_refl a) ih

/-- `Forall₂ FrameOk` composes. -/
theorem forall₂_frameOk_trans {l₁ l₂ l₃ : List EmbeddingRow}
    (h1 : List.Forall₂ FrameOk l₁ l₂) (h2 : List.Forall₂ FrameOk l₂ l₃) :
    List.Forall₂ FrameOk l₁ l₃ := by
  induction h1 generalizing l₃ with
  | nil =>
    cases h2
    exact List.Forall₂.nil
  | cons hab h1' ih =>
    cases h2 with
    | cons hbc h2' => exact List.Forall₂.cons (frameOk_trans hab hbc) (ih h2')

/-- One `UPDATE` at the id of a vectorless row is frame-preserving. -/
theorem update_frame {rows : List EmbeddingRow} {tid : Nat} {v : Vec}
    (hnull : ∀ e ∈ rows, e.id = tid → e.embedding = none) :
    List.Forall₂ FrameOk rows (updateEmbeddingById rows tid v) := by
  induction rows with
  | nil => exact List.Forall₂.nil
  | cons a t ih =>
    unfold updateEmbeddingById
    rw [List.map_cons]
    refine List.Forall₂.cons ?_ (ih (fun e he h => hnull e (List.mem_cons_of_mem a he) h))
    by_cases h : a.id = tid
    · rw [if_pos h]
      refine ⟨rfl, rfl, rfl, rfl, rfl, fun w hw => ?_⟩
      rw [hnull a (List.mem_cons_self a t) h] at hw
      exact absurd hw (by simp)
    · rw [if_neg h]
      exact frameOk_refl a

/-- A row whose id is not among the fold's targets survives the whole
write-back fold unchanged. -/
theorem foldUpd_mem_of_id_notin {x : EmbeddingRow} :
    ∀ (ps : List (EmbeddingRow × Vec)) (rows : List EmbeddingRow),
      x ∈ rows → (∀ p ∈ ps, x.id ≠ p.1.id) → x ∈ foldUpd ps rows := by
  intro ps
  induction ps with
  | nil => intro rows hx _; exact hx
  | cons q ps ih =>
    intro rows hx hnotin
    have hstep : x ∈ updateEmbeddingById rows q.1.id q.2 :=
      mem_update_of_id_ne hx (hnotin q (List.mem_cons_self q ps))
    exact ih _ hstep (fun p hp => hnotin p (List.mem_cons_of_mem q hp))

/-- The write-back fold does not change the id column of any row. -/
theorem foldUpd_id_map :
    ∀ (ps : List (EmbeddingRow × Vec)) (rows : List EmbeddingRow),
      (foldUpd ps rows).map (fun e => e.id) = rows.map (fun e => e.id) := by
  intro ps
  induction ps with
  | nil => intro rows; rfl
  | cons q ps ih =>
    intro rows
    have : foldUpd (q :: ps) rows = foldUpd ps (updateEmbeddingById rows q.1.id q.2) := rfl
    rw [this, ih, updateEmbeddingById_id_map]

/-- The write-back fold is frame-preserving when every targeted id is
the id of a vectorless row and the targets are pairwise distinct. -/
theorem foldUpd_frame :
    ∀ (ps : List (EmbeddingRow × Vec)) (rows : List EmbeddingRow),
      (∀ p ∈ ps, ∀ e ∈ rows, e.id = p.1.id → e.embedding = none) →
      (ps.map (fun p => p.1.id)).Nodup →
      List.Forall₂ FrameOk rows (foldUpd ps rows) := by
  intro ps
  induction ps with
  | nil => intro rows _ _; exact forall₂_frameOk_refl rows
  | cons q ps ih =>
    intro rows hnull hdist
    have hq : ∀ e ∈ rows, e.id = q.1.id → e.embedding = none :=
      hnull q (List.mem_cons_self q ps)
    have hstep : List.Forall₂ FrameOk rows (updateEmbeddingById rows q.1.id q.2) :=
      update_frame hq
    have hdist' : (ps.map (fun p => p.1.id)).Nodup := (List.nodup_cons.mp hdist).2
    have hqnot : q.1.id ∉ ps.map (fun p => p.1.id) := (List.nodup_cons.mp hdist).1
    have hnull' : ∀ p ∈ ps, ∀ e ∈ updateEmbeddingById rows q.1.id q.2,
        e.id = p.1.id → e.embedding = none := by
      intro p hp e he heid
      unfold updateEmbeddingById at he
      rw [List.mem_map] at he
      obtain ⟨e₀, he₀, rfl⟩ := he
      by_cases h : e₀.id = q.1.id
      · rw [if_pos h] at heid ⊢
        exfalso
        apply hqnot
        rw [List.mem_map]
        exact ⟨p, hp, by rw [← heid]; exact h⟩
      · rw [if_neg h] at heid ⊢
        exact hnull p (List.mem_cons_of_mem q hp) e₀ he₀ heid
    have hrest : List.Forall₂ FrameOk (updateEmbeddingById rows q.1.id q.2)
        (foldUpd ps (updateEmbeddingById rows q.1.id q.2)) :=
      ih _ hnull' hdist'
    exact forall₂_frameOk_trans hstep hrest

/-- Every (row, vector) pair of the write-back fold lands: the row ends
up carrying exactly its paired vector. -/
theorem foldUpd_target_mem :
    ∀ (ps : List (EmbeddingRow × Vec)) (rows : List EmbeddingRow),
      (ps.map (fun p => p.1.id)).Nodup →
      (∀ p ∈ ps, p.1 ∈ rows) →
      ∀ p ∈ ps, { p.1 with embedding := some p.2 } ∈ foldUpd ps rows := by
  intro ps
  induction ps with
  | nil => intro rows _ _ p hp; exact absurd hp (List.not_mem_nil p)
  | cons q ps ih =>
    intro rows hdist hmem p hp
    have hdist' : (ps.map (fun p => p.1.id)).Nodup := (List.nodup_cons.mp hdist).2
    have hqnot : q.1.id ∉ ps.map (fun p => p.1.id) := (List.nodup_cons.mp hdist).1
    rcases List.mem_cons.mp hp with rfl | hp'
    · -- the head pair is written by the first update and survives the rest
      have htgt : { p.1 with embedding := some p.2 } ∈
          updateEmbeddingById rows p.1.id p.2 :=
        target_mem_update p.2 (hmem p (List.mem_cons_self p ps))
      have : foldUpd (p :: ps) rows = foldUpd ps (updateEmbeddingById rows p.1.id p.2) := rfl
      rw [this]
      apply foldUpd_mem_of_id_notin ps _ htgt
      intro r hr
      intro hcontra
      apply hqnot
      rw [List.mem_map]
      exact ⟨r, hr, by exact hcontra.symm⟩
    · -- pairs further down are handled by the tail fold on the updated rows
      have hmem' : ∀ x ∈ ps, x.1 ∈ updateEmbeddingById rows q.1.id q.2 := by
        intro x hx
        refine mem_update_of_id_ne (hmem x (List.mem_cons_of_mem q hx)) ?_
        intro hcontra
        apply hqnot
        rw [List.mem_map]
        exact ⟨x, hx, hcontra⟩
      have : foldUpd (q :: ps) rows = foldUpd ps (updateEmbeddingById rows q.1.id q.2) := rfl
      rw [this]
      exact ih _ hdist' hmem' p hp'

/-- With no row left to embed, the loop breaks and the handler reports
success. -/
theorem backfillStep_of_empty (f : String → Vec) (o : Nat → BatchOutcome)
    (total : Nat) (s : BackfillState)
    (h : selectNullBatch s.db BATCH_SIZE = []) :
    backfillStep f o total s =
      .done s { success := true, processed := s.processed, total := total,
                errors := s.errors } := by
  unfold backfillStep
  rw [h]
  rfl

/-- The 429 branch: the error counter is bumped, a 60 s wait is emitted,
and the loop continues with the database untouched. -/
theorem backfillStep_of_rateLimited (f : String → Vec) (o : Nat → BatchOutcome)
    (total : Nat) (s : BackfillState)
    (hne : selectNullBatch s.db BATCH_SIZE ≠ [])
    (h429 : o s.calls = .rateLimited) :
    backfillStep f o total s = .next
      { db := s.db, processed := s.processed, errors := s.errors + 1,
        calls := s.calls + 1,
        trace := s.trace ++ [BackfillEv.embedCall (batchTexts s.db),
          BackfillEv.wait 60000] } := by
  unfold backfillStep
  rw [h429]
  rw [if_neg (fun hh => hne (List.isEmpty_iff.mp hh))]
  rfl

/-- The over-threshold failure branch: the handler returns the partial
report. -/
theorem backfillStep_of_failed_over (f : String → Vec) (o : Nat → BatchOutcome)
    (total : Nat) (s : BackfillState)
    (hne : selectNullBatch s.db BATCH_SIZE ≠ [])
    (hf : o s.calls = .failed) (hover : 10 < s.errors + 1) :
    backfillStep f o total s = .done
      { db := s.db
        processed := s.processed
        errors := s.errors + 1
        calls := s.calls + 1
        trace := s.trace ++ [BackfillEv.embedCall (batchTexts s.db)] }
      { success := false
        processed := s.processed
        total := total
        errors := s.errors + 1 } := by
  unfold backfillStep
  rw [hf]
  rw [if_neg (fun hh => hne (List.isEmpty_iff.mp hh))]
  show (if 10 < s.errors + 1 then
      BackfillStepRes.done
        { db := s.db, processed := s.processed, errors := s.errors + 1,
          calls := s.calls + 1,
          trace := s.trace ++ [BackfillEv.embedCall (batchTexts s.db)] }
        { success := false, processed := s.processed, total := total,
          errors := s.errors + 1 }
    else
      BackfillStepRes.next
        { db := s.db, processed := s.processed, errors := s.errors + 1,
          calls := s.calls + 1,
          trace := s.trace ++ [BackfillEv.embedCall (batchTexts s.db),
            BackfillEv.wait 200] }) = _
  rw [if_pos hover]

/-- The under-threshold failure branch: the error counter is bumped and
the loop continues with the database untouched. -/
theorem backfillStep_of_failed_under (f : String → Vec) (o : Nat → BatchOutcome)
    (total : Nat) (s : BackfillState)
    (hne : selectNullBatch s.db BATCH_SIZE ≠ [])
    (hf : o s.calls = .failed) (hunder : ¬ 10 < s.errors + 1) :
    backfillStep f o total s = .next
      { db := s.db, processed := s.processed, errors := s.errors + 1,
        calls := s.calls + 1,
        trace := s.trace ++ [BackfillEv.embedCall (batchTexts s.db),
          BackfillEv.wait 200] } := by
  unfold backfillStep
  rw [hf]
  rw [if_neg (fun hh => hne (List.isEmpty_iff.mp hh))]
  show (if 10 < s.errors + 1 then
      BackfillStepRes.done
        { db := s.db, processed := s.processed, errors := s.errors + 1,
          calls := s.calls + 1,
          trace := s.trace ++ [BackfillEv.embedCall (batchTexts s.db)] }
        { success := false, processed := s.processed, total := total,
          errors := s.errors + 1 }
    else
      BackfillStepRes.next
        { db := s.db, processed := s.processed, errors := s.errors + 1,
          calls := s.calls + 1,
          trace := s.trace ++ [BackfillEv.embedCall (batchTexts s.db),
            BackfillEv.wait 200] }) = _
  rw [if_neg hunder]

/-- The success branch: the returned vectors are written back and
`processed` advances by the batch size. -/
theorem backfillStep_of_ok (f : String → Vec) (o : Nat → BatchOutcome)
    (total : Nat) (s : BackfillState)
    (hne : selectNullBatch s.db BATCH_SIZE ≠ [])
    (hok : o s.calls = .ok) :
    backfillStep f o total s = .next
      { db := applyBatch s.db (selectNullBatch s.db BATCH_SIZE)
          ((batchTexts s.db).map f),
        processed := s.processed + (selectNullBatch s.db BATCH_SIZE).length,
        errors := s.errors, calls := s.calls + 1,
        trace := s.trace ++ (BackfillEv.embedCall (batchTexts s.db) ::
          ((selectNullBatch s.db BATCH_SIZE).zip ((batchTexts s.db).map f)).map
            (fun p => BackfillEv.update p.1.id p.2)) ++
          [BackfillEv.wait 200] } := by
  unfold backfillStep
  rw [hok]
  rw [if_neg (fun hh => hne (List.isEmpty_iff.mp hh))]
  rfl

/-- The write-back pairs of an ok batch target pairwise-distinct ids. -/
theorem zipped_ids_nodup {db : DB} (f : String → Vec)
    (hnd : (db.embeddings.map (fun e => e.id)).Nodup) :
    (((selectNullBatch db BATCH_SIZE).zip ((batchTexts db).map f)).map
      (fun p => p.1.id)).Nodup := by
  have hlen : (selectNullBatch db BATCH_SIZE).length ≤
      ((batchTexts db).map f).length := by
    rw [List.length_map]
    unfold batchTexts
    rw [List.length_map]
  have hfst := List.map_fst_zip (selectNullBatch db BATCH_SIZE)
    ((batchTexts db).map f) hlen
  rw [show (fun (p : EmbeddingRow × Vec) => p.1.id) =
    (fun (e : EmbeddingRow) => e.id) ∘ Prod.fst from rfl]
  rw [← List.map_map, hfst]
  exact selectNullBatch_ids_nodup hnd

/-- Every id targeted by an ok batch belongs to a vectorless row, and to
no other row. -/
theorem zipped_null {db : DB} (f : String → Vec)
    (hnd : (db.embeddings.map (fun e => e.id)).Nodup) :
    ∀ p ∈ (selectNullBatch db BATCH_SIZE).zip ((batchTexts db).map f),
      ∀ e ∈ db.embeddings, e.id = p.1.id → e.embedding = none := by
  intro p hp e he heid
  obtain ⟨a, b⟩ := p
  have ha := (List.of_mem_zip hp).1
  have hsel := mem_selectNullBatch ha
  have : e = a := List.inj_on_of_nodup_map hnd he hsel.1 heid
  rw [this]
  exact hsel.2

/-- The row side of every write-back pair is a row of the database. -/
theorem zipped_fst_mem {db : DB} (f : String → Vec) :
    ∀ p ∈ (selectNullBatch db BATCH_SIZE).zip ((batchTexts db).map f),
      p.1 ∈ db.embeddings := by
  intro p hp
  obtain ⟨a, b⟩ := p
  exact (mem_selectNullBatch (List.of_mem_zip hp).1).1

/-- The batch write-back loop, stated on the database record. -/
theorem applyBatch_embeddings (db : DB) (batch : List EmbeddingRow)
    (vecs : List Vec) :
    (applyBatch db batch vecs).embeddings = foldUpd (batch.zip vecs) db.embeddings := rfl

/-- A run that ends in a success report has embedded every chunk: no row
is missing its vector afterwards. -/
theorem backfillRun_success_countNull (f : String → Vec)
    (o : Nat → BatchOutcome) (total : Nat) :
    ∀ (fuel : Nat) (s s' : BackfillState) (r : BackfillReport),
      backfillRun f o total fuel s = some (s', r) → r.success = true →
      countNull s'.db = 0 := by
  intro fuel
  induction fuel with
  | zero =>
    intro s s' r h
    exact absurd h (by simp [backfillRun])
  | succ n ih =>
    intro s s' r h hsucc
    by_cases hbatch : selectNullBatch s.db BATCH_SIZE = []
    · unfold backfillRun at h
      rw [backfillStep_of_empty f o total s hbatch] at h
      simp only [Option.some.injEq, Prod.mk.injEq] at h
      rw [← h.1]
      exact (selectNullBatch_isEmpty_iff s.db).mp hbatch
    · cases ho : o s.calls with
      | ok =>
        unfold backfillRun at h
        rw [backfillStep_of_ok f o total s hbatch ho] at h
        exact ih _ s' r h hsucc
      | rateLimited =>
        unfold backfillRun at h
        rw [backfillStep_of_rateLimited f o total s hbatch ho] at h
        exact ih _ s' r h hsucc
      | failed =>
        by_cases hover : 10 < s.errors + 1
        · unfold backfillRun at h
          rw [backfillStep_of_failed_over f o total s hbatch ho hover] at h
          simp only [Option.some.injEq, Prod.mk.injEq] at h
          rw [← h.2] at hsucc
          simp at hsucc
        · unfold backfillRun at h
          rw [backfillStep_of_failed_under f o total s hbatch ho hover] at h
          exact ih _ s' r h hsucc

/-- Whole-run frame: with pairwise-distinct ids, a backfill run relates
the embeddings table before and after through `FrameOk` row by row. -/
theorem backfillRun_frame (f : String → Vec) (o : Nat → BatchOutcome)
    (total : Nat) :
    ∀ (fuel : Nat) (s s' : BackfillState) (r : BackfillReport),
      (s.db.embeddings.map (fun e => e.id)).Nodup →
      backfillRun f o total fuel s = some (s', r) →
      List.Forall₂ FrameOk s.db.embeddings s'.db.embeddings := by
  intro fuel
  induction fuel with
  | zero =>
    intro s s' r _ h
    exact absurd h (by simp [backfillRun])
  | succ n ih =>
    intro s s' r hnd h
    by_cases hbatch : selectNullBatch s.db BATCH_SIZE = []
    · unfold backfillRun at h
      rw [backfillStep_of_empty f o total s hbatch] at h
      simp only [Option.some.injEq, Prod.mk.injEq] at h
      rw [← h.1]
      exact forall₂_frameOk_refl _
    · cases ho : o s.calls with
      | ok =>
        unfold backfillRun at h
        rw [backfillStep_of_ok f o total s hbatch ho] at h
        have hframe : List.Forall₂ FrameOk s.db.embeddings
            (applyBatch s.db (selectNullBatch s.db BATCH_SIZE)
              ((batchTexts s.db).map f)).embeddings := by
          rw [applyBatch_embeddings]
          exact foldUpd_frame _ _ (zipped_null f hnd) (zipped_ids_nodup f hnd)
        have hnd' : ((applyBatch s.db (selectNullBatch s.db BATCH_SIZE)
            ((batchTexts s.db).map f)).embeddings.map (fun e => e.id)).Nodup := by
          rw [applyBatch_embeddings, foldUpd_id_map]
          exact hnd
        exact forall₂_frameOk_trans hframe (ih _ s' r hnd' h)
      | rateLimited =>
        unfold backfillRun at h
        rw [backfillStep_of_rateLimited f o total s hbatch ho] at h
        exact ih
          { db := s.db
            processed := s.processed
            errors := s.errors + 1
            calls := s.calls + 1
            trace := s.trace ++ [BackfillEv.embedCall (batchTexts s.db),
              BackfillEv.wait 60000] } s' r hnd h
      | failed =>
        by_cases hover : 10 < s.errors + 1
        · unfold backfillRun at h
          rw [backfillStep_of_failed_over f o total s hbatch ho hover] at h
          simp only [Option.some.injEq, Prod.mk.injEq] at h
          rw [← h.1]
          exact forall₂_frameOk_refl _
        · unfold backfillRun at h
          rw [backfillStep_of_failed_under f o total s hbatch ho hover] at h
          exact ih
            { db := s.db
              processed := s.processed
              errors := s.errors + 1
              calls := s.calls + 1
              trace := s.trace ++ [BackfillEv.embedCall (batchTexts s.db),
                BackfillEv.wait 200] } s' r hnd h

/-- When no chunk is missing a vector the backfill handler performs no
writes and returns `total = 0` at once. -/
theorem backfill_noop_of_zero (f : String → Vec) (o : Nat → BatchOutcome)
    (fuel : Nat) (db : DB) (h : countNull db = 0) :
    backfillMissingEmbeddings f o fuel db =
      some (db, ⟨true, 0, 0, 0⟩) := by
  unfold backfillMissingEmbeddings
  rw [if_pos h]

/-- C3: `backfillMissingEmbeddings` is idempotent at the no-work fixed
point. When no chunk lacks a vector the run performs no writes and
reports `total = 0`; moreover any run that returns a success report
leaves no chunk without a vector, so an immediately following run
performs no writes and reports `total = 0`. -/
theorem backfill_idempotent_fixed_point (f : String → Vec)
    (o : Nat → BatchOutcome) (fuel : Nat) (db : DB) :
    (countNull db = 0 →
      backfillMissingEmbeddings f o fuel db = some (db, ⟨true, 0, 0, 0⟩)) ∧
    ∀ (db' : DB) (r : BackfillReport),
      backfillMissingEmbeddings f o fuel db = some (db', r) →
      r.success = true →
      countNull db' = 0 ∧
      ∀ (f2 : String → Vec) (o2 : Nat → BatchOutcome) (fuel2 : Nat),
        backfillMissingEmbeddings f2 o2 fuel2 db' = some (db', ⟨true, 0, 0, 0⟩) := by
  constructor
  · exact backfill_noop_of_zero f o fuel db
  · intro db' r h hsucc
    by_cases h0 : countNull db = 0
    · rw [backfill_noop_of_zero f o fuel db h0] at h
      simp only [Option.some.injEq, Prod.mk.injEq] at h
      refine ⟨by rw [← h.1]; exact h0, ?_⟩
      intro f2 o2 fuel2
      exact backfill_noop_of_zero f2 o2 fuel2 db' (by rw [← h.1]; exact h0)
    · unfold backfillMissingEmbeddings at h
      rw [if_neg h0] at h
      cases hrun : backfillRun f o (countNull db) fuel ⟨db, 0, 0, 0, []⟩ with
      | none =>
        rw [hrun] at h
        exact absurd h (by simp)
      | some p =>
        obtain ⟨s₂, r₂⟩ := p
        rw [hrun] at h
        simp only [Option.some.injEq, Prod.mk.injEq] at h
        have hc : countNull s₂.db = 0 :=
          backfillRun_success_countNull f o (countNull db) fuel _ s₂ r₂ hrun
            (by rw [h.2]; exact hsucc)
        refine ⟨by rw [← h.1]; exact hc, ?_⟩
        intro f2 o2 fuel2
        exact backfill_noop_of_zero f2 o2 fuel2 db' (by rw [← h.1]; exact hc)

/-- Witness for C3: an already fully-embedded database. -/
theorem backfill_idempotent_fixed_point_witness :
    countNull dbAllEmbedded = 0 ∧
    backfillMissingEmbeddings embedLen oracleOk 3 dbAllEmbedded =
      some (dbAllEmbedded, ⟨true, 0, 0, 0⟩) :=
  ⟨by decide,
   (backfill_idempotent_fixed_point embedLen oracleOk 3 dbAllEmbedded).1 (by decide)⟩

/-- C4: on a 429 rate-limit outcome the backfill loop waits the fixed
60 s cool-down and continues — the run is not terminated, the database
and progress counter are untouched, and the next iteration re-selects
and re-submits exactly the same batch of vectorless rows. -/
theorem backfill_rate_limit_retry (f : String → Vec) (o : Nat → BatchOutcome)
    (total : Nat) (s : BackfillState)
    (hne : selectNullBatch s.db BATCH_SIZE ≠ [])
    (h429 : o s.calls = BatchOutcome.rateLimited) :
    ∃ s', backfillStep f o total s = .next s' ∧ s'.db = s.db ∧
      s'.processed = s.processed ∧
      s'.trace = s.trace ++ [BackfillEv.embedCall (batchTexts s.db),
        BackfillEv.wait 60000] ∧
      selectNullBatch s'.db BATCH_SIZE = selectNullBatch s.db BATCH_SIZE ∧
      batchTexts s'.db = batchTexts s.db :=
  ⟨_, backfillStep_of_rateLimited f o total s hne h429, rfl, rfl, rfl, rfl, rfl⟩

/-- Witness for C4 at a database with one vectorless chunk under an
always-rate-limiting provider. -/
theorem backfill_rate_limit_retry_witness :
    selectNullBatch stateOneNull.db BATCH_SIZE ≠ [] ∧
    oracle429 stateOneNull.calls = BatchOutcome.rateLimited ∧
    ∃ s', backfillStep embedLen oracle429 1 stateOneNull = .next s' ∧
      s'.db = stateOneNull.db ∧
      s'.processed = stateOneNull.processed ∧
      s'.trace = stateOneNull.trace ++
        [BackfillEv.embedCall (batchTexts stateOneNull.db), BackfillEv.wait 60000] ∧
      selectNullBatch s'.db BATCH_SIZE = selectNullBatch stateOneNull.db BATCH_SIZE ∧
      batchTexts s'.db = batchTexts stateOneNull.db :=
  ⟨by decide, by decide,
   backfill_rate_limit_retry embedLen oracle429 1 stateOneNull (by decide) (by decide)⟩

/-- C5 counterexample: eleven rate-limited batches followed by a single
non-rate-limit batch failure abort the run with a partial-success report
(`success = false`, `errors = 12`), although only one batch failure
unrelated to rate-limiting ever occurred and no two failures were
consecutive in the claim's sense — the `errors` counter counts 429
outcomes too and is cumulative, contradicting the claim. -/
theorem backfill_error_counter_counterexample :
    backfillMissingEmbeddings embedLen oracle429ThenFail 20 dbOneNull =
      some (dbOneNull, ⟨false, 0, 1, 12⟩) ∧
    ((List.range 12).filter
      (fun n => oracle429ThenFail n == BatchOutcome.failed)).length = 1 ∧
    (∀ n < 11, oracle429ThenFail n = BatchOutcome.rateLimited) := by decide

/-- C5 as amended: the run aborts exactly when the cumulative error
counter exceeds ten at a non-rate-limited batch failure; every failed
batch, rate-limited or not, increments the counter; a successful batch
does not reset it; a rate-limited batch never triggers the abort on its
own iteration; on abort the handler returns the partial report
`{success := false, processed, total, errors}`. -/
theorem backfill_error_threshold_amended (f : String → Vec)
    (o : Nat → BatchOutcome) (total : Nat) (s : BackfillState)
    (hne : selectNullBatch s.db BATCH_SIZE ≠ []) :
    (o s.calls = BatchOutcome.failed → 10 < s.errors + 1 →
      ∃ s', backfillStep f o total s =
        .done s' ⟨false, s.processed, total, s.errors + 1⟩) ∧
    (o s.calls = BatchOutcome.failed → ¬ 10 < s.errors + 1 →
      ∃ s', backfillStep f o total s = .next s' ∧
        s'.errors = s.errors + 1 ∧ s'.db = s.db) ∧
    (o s.calls = BatchOutcome.rateLimited →
      ∃ s', backfillStep f o total s = .next s' ∧ s'.errors = s.errors + 1) ∧
    (o s.calls = BatchOutcome.ok →
      ∃ s', backfillStep f o total s = .next s' ∧ s'.errors = s.errors) := by
  refine ⟨?_, ?_, ?_, ?_⟩
  · intro hf hover
    exact ⟨_, backfillStep_of_failed_over f o total s hne hf hover⟩
  · intro hf hunder
    exact ⟨_, backfillStep_of_failed_under f o total s hne hf hunder, rfl, rfl⟩
  · intro h429
    exact ⟨_, backfillStep_of_rateLimited f o total s hne h429, rfl⟩
  · intro hok
    exact ⟨_, backfillStep_of_ok f o total s hne hok, rfl⟩

/-- Witness for the amended C5: a rate-limited batch increments the
counter without aborting. -/
theorem backfill_error_threshold_amended_witness :
    selectNullBatch stateOneNull.db BATCH_SIZE ≠ [] ∧
    oracle429 stateOneNull.calls = BatchOutcome.rateLimited ∧
    ∃ s', backfillStep embedLen oracle429 1 stateOneNull = .next s' ∧
      s'.errors = stateOneNull.errors + 1 :=
  ⟨by decide, by decide,
   (backfill_error_threshold_amended embedLen oracle429 1 stateOneNull
     (by decide)).2.2.1 (by decide)⟩

/-- C6: for a successfully embedded batch, the provider returns one
vector per submitted text in order, and the write-back is positional —
the i-th returned vector is stored on the i-th selected chunk row, so
every selected chunk row ends up carrying the vector computed from its
own (normalized) text. -/
theorem backfill_positional_write_back (f : String → Vec)
    (o : Nat → BatchOutcome) (total : Nat) (s : BackfillState)
    (hnd : (s.db.embeddings.map (fun e => e.id)).Nodup)
    (hok : o s.calls = BatchOutcome.ok)
    (hne : selectNullBatch s.db BATCH_SIZE ≠ []) :
    ∃ s', backfillStep f o total s = .next s' ∧
      ((batchTexts s.db).map f).length = (selectNullBatch s.db BATCH_SIZE).length ∧
      ∀ i (hi : i < (selectNullBatch s.db BATCH_SIZE).length),
        { (selectNullBatch s.db BATCH_SIZE)[i] with
          embedding := some (f (normalizeChunkText
            ((selectNullBatch s.db BATCH_SIZE)[i]).chunk_text)) } ∈
          s'.db.embeddings := by
  refine ⟨_, backfillStep_of_ok f o total s hne hok, ?_, ?_⟩
  · rw [List.length_map]
    unfold batchTexts
    rw [List.length_map]
  · intro i hi
    show _ ∈ (applyBatch s.db (selectNullBatch s.db BATCH_SIZE)
      ((batchTexts s.db).map f)).embeddings
    rw [applyBatch_embeddings]
    have hv : (batchTexts s.db).map f = (selectNullBatch s.db BATCH_SIZE).map
        (fun r => f (normalizeChunkText r.chunk_text)) := by
      unfold batchTexts
      rw [List.map_map]
      rfl
    have hzip : (selectNullBatch s.db BATCH_SIZE).zip
        ((selectNullBatch s.db BATCH_SIZE).map
          (fun r => f (normalizeChunkText r.chunk_text))) =
        (selectNullBatch s.db BATCH_SIZE).map
          (fun r => (r, f (normalizeChunkText r.chunk_text))) := by
      have h := List.zip_map' id (fun r => f (normalizeChunkText r.chunk_text))
        (selectNullBatch s.db BATCH_SIZE)
      rw [List.map_id] at h
      exact h
    have hpair_mem : ((selectNullBatch s.db BATCH_SIZE)[i],
        f (normalizeChunkText ((selectNullBatch s.db BATCH_SIZE)[i]).chunk_text)) ∈
        (selectNullBatch s.db BATCH_SIZE).zip ((batchTexts s.db).map f) := by
      rw [hv, hzip, List.mem_map]
      exact ⟨(selectNullBatch s.db BATCH_SIZE)[i], List.getElem_mem hi, rfl⟩
    exact foldUpd_target_mem _ s.db.embeddings (zipped_ids_nodup f hnd)
      (zipped_fst_mem f) _ hpair_mem

/-- Witness for C6 at a database with one vectorless chunk under an
always-succeeding provider. -/
theorem backfill_positional_write_back_witness :
    (stateOneNull.db.embeddings.map (fun e => e.id)).Nodup ∧
    oracleOk stateOneNull.calls = BatchOutcome.ok ∧
    selectNullBatch stateOneNull.db BATCH_SIZE ≠ [] ∧
    ∃ s', backfillStep embedLen oracleOk 1 stateOneNull = .next s' ∧
      ((batchTexts stateOneNull.db).map embedLen).length =
        (selectNullBatch stateOneNull.db BATCH_SIZE).length ∧
      ∀ i (hi : i < (selectNullBatch stateOneNull.db BATCH_SIZE).length),
        { (selectNullBatch stateOneNull.db BATCH_SIZE)[i] with
          embedding := some (embedLen (normalizeChunkText
            ((selectNullBatch stateOneNull.db BATCH_SIZE)[i]).chunk_text)) } ∈
          s'.db.embeddings :=
  ⟨by decide, by decide, by decide,
   backfill_positional_write_back embedLen oracleOk 1 stateOneNull
     (by decide) (by decide) (by decide)⟩

/-- C9: a backfill run only ever selects rows whose `embedding` column
is NULL, and it is frame-preserving on everything else: row for row, the
chunk text is never altered and every row that already carried a vector
is unchanged. -/
theorem backfill_frame_no_overwrite (f : String → Vec)
    (o : Nat → BatchOutcome) (fuel : Nat) (db db' : DB) (r : BackfillReport)
    (hnd : (db.embeddings.map (fun e => e.id)).Nodup)
    (h : backfillMissingEmbeddings f o fuel db = some (db', r)) :
    (∀ e ∈ selectNullBatch db BATCH_SIZE,
      e.embedding = none ∧ e ∈ db.embeddings) ∧
    List.Forall₂ (fun e e' => e'.chunk_text = e.chunk_text ∧
      (e.embedding ≠ none → e' = e)) db.embeddings db'.embeddings := by
  constructor
  · intro e he
    have hm := mem_selectNullBatch he
    exact ⟨hm.2, hm.1⟩
  · have hframe : List.Forall₂ FrameOk db.embeddings db'.embeddings := by
      unfold backfillMissingEmbeddings at h
      by_cases h0 : countNull db = 0
      · rw [if_pos h0] at h
        simp only [Option.some.injEq, Prod.mk.injEq] at h
        rw [← h.1]
        exact forall₂_frameOk_refl _
      · rw [if_neg h0] at h
        cases hrun : backfillRun f o (countNull db) fuel ⟨db, 0, 0, 0, []⟩ with
        | none =>
          rw [hrun] at h
          exact absurd h (by simp)
        | some p =>
          obtain ⟨s₂, r₂⟩ := p
          rw [hrun] at h
          simp only [Option.some.injEq, Prod.mk.injEq] at h
          rw [← h.1]
          exact backfillRun_frame f o (countNull db) fuel ⟨db, 0, 0, 0, []⟩ s₂ r₂
            hnd hrun
    refine hframe.imp ?_
    intro e e' hf
    obtain ⟨hid, hcid, hbid, hdid, htext, hvec⟩ := hf
    refine ⟨htext, ?_⟩
    intro hnonull
    obtain ⟨v, hv⟩ := Option.ne_none_iff_exists'.mp hnonull
    have hemb : e'.embedding = e.embedding := by
      rw [hv]
      exact hvec v hv
    exact EmbeddingRow.ext hid hcid hbid hdid htext hemb

/-- Witness for C9: a full successful backfill of the one-chunk
database. -/
theorem backfill_frame_no_overwrite_witness :
    (dbOneNull.embeddings.map (fun e => e.id)).Nodup ∧
    backfillMissingEmbeddings embedLen oracleOk 5 dbOneNull =
      some (dbOneNullEmbedded, ⟨true, 1, 1, 0⟩) ∧
    ((∀ e ∈ selectNullBatch dbOneNull BATCH_SIZE,
      e.embedding = none ∧ e ∈ dbOneNull.embeddings) ∧
    List.Forall₂ (fun e e' => e'.chunk_text = e.chunk_text ∧
      (e.embedding ≠ none → e' = e))
      dbOneNull.embeddings dbOneNullEmbedded.embeddings) :=
  ⟨by decide, by decide,
   backfill_frame_no_overwrite embedLen oracleOk 5 dbOneNull dbOneNullEmbedded
     ⟨true, 1, 1, 0⟩ (by decide) (by decide)⟩

end AutoReplyChat
